import Mathlib

/-!
# Supervised command execution (`app/converter/process/process.go`)

A shallow embedding of package `process`: the error values it returns, the
`runner` holding the loaded commands configuration, `run` (start a shell
command, race its completion against a timer, kill it on timeout), `Load`,
`Unconv` and `Merge`.

Everything the package obtains from outside itself is an explicit argument:

* a `World` gives the answers of the operating system and of the libraries
  for one call (`gfile.MakeFilePath`, `(*template.Template).Execute`,
  `(*exec.Cmd).Start`, and for a started child: `Wait`, `Kill` and the moment
  its completion reaches the `done` channel);
* Go pointers that may be nil are `Option` values, and a nil dereference is
  the outcome `panic`;
* the effects of a call that callers cannot see in the returned values
  (templates executed, commands run, what became of the child process) are
  returned next to them.
-/

namespace Gotenberg

/-! ## Errors -/

/-- An `error` value created outside package `process`: by `os/exec`, `os`,
`syscall` or `text/template`. The package never inspects such a value. -/
structure LibError where
  msg : String
deriving DecidableEq, Repr

/-- The Go type `commandTimeoutError` (process.go:23-26). -/
structure commandTimeoutError where
  command : String
  timeout : Int
deriving DecidableEq, Repr

/-- The Go type `impossibleConversionError` (process.go:78), an empty struct. -/
structure impossibleConversionError where
deriving DecidableEq, Repr

/-- A non-nil Go `error` interface value as package `process` can return it:
one of its own two error types, or a value handed over by a library. The nil
error is `none : Option error`. -/
inductive error where
  | ofTimeout (e : commandTimeoutError)
  | ofImpossible (e : impossibleConversionError)
  | foreign (e : LibError)
deriving DecidableEq, Repr

/-! ## The child process and the timer -/

/-- What the operating system does with a child process that has been started.
`exitAfter` is the number of nanoseconds after which the result of `cmd.Wait()`
arrives on the channel `done` (`none`: the child does not terminate on its
own); `wait` is that result; `kill` is what `cmd.Process.Kill()` returns if it
is called; `timerOnTie` is the choice `select` makes when both channels are
ready at the same moment. -/
structure Child where
  exitAfter : Option Nat
  wait : Option LibError
  kill : Option LibError
  timerOnTie : Bool
deriving DecidableEq, Repr

/-- Two-complement wrap-around of a mathematical integer into `int64`. -/
def wrapInt64 (x : Int) : Int :=
  (x + 9223372036854775808) % 18446744073709551616 - 9223372036854775808

/-- The constant `time.Second`, in nanoseconds. -/
def Second : Int := 1000000000

/-- The expression `time.Duration(timeout) * time.Second` (process.go:50), an
`int64` product. -/
def timerDuration (timeout : Int) : Int :=
  wrapInt64 (timeout * Second)

/-- The moment, in nanoseconds, at which the channel of `time.After d` becomes
ready: after `d`, at once when `d` is zero or negative. -/
def fireAt (timeout : Int) : Nat :=
  (timerDuration timeout).toNat

/-- The two cases of the `select` statement of `run` (process.go:49-64). -/
inductive SelectCase where
  | timer
  | done
deriving DecidableEq, Repr

/-- Which case the `select` of `run` takes: the channel that becomes ready
first; when both become ready at the same moment, either, as `timerOnTie`
says. -/
def selectCase (timeout : Int) (p : Child) : SelectCase :=
  match p.exitAfter with
  | none => .timer
  | some e =>
    if e < fireAt timeout then .done
    else if fireAt timeout < e then .timer
    else if p.timerOnTie then .timer else .done

/-- The state of a child process at the moment `run` returns. -/
inductive ChildStatus where
  | reaped
  | killed
  | alive
deriving DecidableEq, Repr

/-! ## Templates and their data -/

/-- A parsed command template, the Go type `template.Template`. Only its
identity matters here; executing it is left to the `World`. -/
structure Template where
  text : String
deriving DecidableEq, Repr

/-- The Go type `conversionData` (process.go:73-76). -/
structure conversionData where
  FilePath : String
  ResultFilePath : String
deriving DecidableEq, Repr

/-- The Go type `mergeData` (process.go:129-132). -/
structure mergeData where
  FilesPaths : List String
  ResultFilePath : String
deriving DecidableEq, Repr

/-- The second argument of `(*template.Template).Execute`, an `interface{}` that
package `process` fills with one of its two data types. -/
inductive TemplateData where
  | conversion (d : conversionData)
  | merge (d : mergeData)
deriving DecidableEq, Repr

/-- The field `ResultFilePath` of the data handed to a template. -/
def TemplateData.ResultFilePath : TemplateData → String
  | .conversion d => d.ResultFilePath
  | .merge d => d.ResultFilePath

/-- The answers of the environment during one call. -/
structure World where
  /-- The function `gfile.MakeFilePath`. -/
  MakeFilePath : String → String → String
  /-- The method `Execute` of a non-nil template: an error, or the text written
  to the buffer. -/
  Execute : Template → TemplateData → Except LibError String
  /-- The function `cmd.Start()` for `exec.Command("/bin/sh", "-c", command)`:
  an error, or the child that now runs. -/
  Start : String → Except LibError Child

/-- What one call of `run` does: the error it returns and what became of the
child it started (`none`: no child was started). -/
structure RunResult where
  err : Option error
  child : Option ChildStatus
deriving DecidableEq, Repr

/-- The method `runner.run` (process.go:34-65). The mutex of the runner is taken
at entry and released by the deferred `Unlock` at every return; a single call
therefore leaves it as it found it (the interleaving of several calls is
`Sys.step` below). -/
def run (w : World) (command : String) (timeout : Int) : RunResult :=
  match w.Start command with
  | .error err => { err := some (.foreign err), child := none }
  | .ok p =>
    match selectCase timeout p with
    | .timer =>
      match p.kill with
      | some err =>
        { err := some (.foreign err)
          child := some (if p.exitAfter.any (fun e => e ≤ fireAt timeout) then .reaped else .alive) }
      | none =>
        { err := some (.ofTimeout { command := command, timeout := timeout })
          child := some .killed }
    | .done =>
      match p.wait with
      | some err => { err := some (.foreign err), child := some .reaped }
      | none => { err := none, child := some .reaped }

/-! ## Configuration and files -/

/-- The Go type `config.CommandConfig`, as far as package `process` reads it:
the fields `Timeout` (an `int`) and `Template` (a `*template.Template`, `none`
when nil). Its declaration lies in package `config`. -/
structure CommandConfig where
  Timeout : Int
  Template : Option Template
deriving DecidableEq, Repr

/-- The Go type `config.CommandsConfig`, as far as package `process` reads it:
one entry for each kind of operation. Its declaration lies in package
`config`; an entry is `none` when it is a nil pointer, which covers both a
pointer field and a struct field (then never `none`). -/
structure CommandsConfig where
  Markdown : Option CommandConfig
  HTML : Option CommandConfig
  Office : Option CommandConfig
  Merge : Option CommandConfig
deriving DecidableEq, Repr

/-- The Go type `gfile.Type`: the three constants the `switch` of `Unconv` names
(pairwise distinct, as the cases of one `switch`), and every other value. -/
inductive FileType where
  | MarkdownType
  | HTMLType
  | OfficeType
  | other (n : Nat)
deriving DecidableEq, Repr

/-- The Go type `gfile.File`, as far as package `process` reads it; `Typ` is
its field `Type`. -/
structure File where
  Path : String
  Typ : FileType
deriving DecidableEq, Repr

/-- The Go type `runner` (process.go:16-19): `mu` tells whether the mutex is
held, `commandsConfig` is `none` while the pointer is nil. -/
structure runner where
  mu : Bool
  commandsConfig : Option CommandsConfig
deriving DecidableEq, Repr

/-- The package variable `forest` as it is initialised (process.go:21). -/
def forest : runner :=
  { mu := false, commandsConfig := none }

/-- The function `Load` (process.go:68-70), on the runner `forest`. -/
def Load (forest : runner) (config : Option CommandsConfig) : runner :=
  { forest with commandsConfig := config }

/-! ## Unconv and Merge -/

/-- How a call of `Unconv` or `Merge` ends. -/
inductive Outcome where
  | panic
  | returned (path : String) (err : Option error)
deriving DecidableEq, Repr

/-- What a call of `Unconv` or `Merge` did before it ended, in order. -/
inductive Event where
  | rendered (t : Template) (data : TemplateData) (res : Except LibError String)
  | ran (command : String) (timeout : Int) (res : RunResult)

/-- The end of a call together with what it did. -/
structure Report where
  outcome : Outcome
  trace : List Event

/-- The reads `forest.commandsConfig.X.Timeout` and
`forest.commandsConfig.X.Template` for the entry `X`; a nil pointer on the way
is a panic. -/
def readEntry (forest : runner) (entry : CommandsConfig → Option CommandConfig) :
    Except Outcome (Int × Option Template) :=
  match forest.commandsConfig with
  | none => .error .panic
  | some c =>
    match entry c with
    | none => .error .panic
    | some e => .ok (e.Timeout, e.Template)

/-- The common end of `Unconv` (process.go:115-125) and `Merge`
(process.go:144-154): execute the template, run the text it wrote, return the
result path. `Execute` on a nil template dereferences it and panics. -/
def renderAndRun (w : World) (cmdTimeout : Int) (cmdTemplate : Option Template)
    (cmdData : TemplateData) : Report :=
  match cmdTemplate with
  | none => { outcome := .panic, trace := [] }
  | some t =>
    match w.Execute t cmdData with
    | .error err =>
      { outcome := .returned "" (some (.foreign err))
        trace := [.rendered t cmdData (.error err)] }
    | .ok data =>
      match (run w data cmdTimeout).err with
      | some err =>
        { outcome := .returned "" (some err)
          trace := [.rendered t cmdData (.ok data), .ran data cmdTimeout (run w data cmdTimeout)] }
      | none =>
        { outcome := .returned cmdData.ResultFilePath none
          trace := [.rendered t cmdData (.ok data), .ran data cmdTimeout (run w data cmdTimeout)] }

/-- The function `Unconv` (process.go:87-126). -/
def Unconv (forest : runner) (w : World) (workingDir : String) (file : Option File) : Report :=
  match file with
  | none => { outcome := .panic, trace := [] }
  | some f =>
    let cmdData : conversionData :=
      { FilePath := f.Path, ResultFilePath := w.MakeFilePath workingDir ".pdf" }
    let selected : Except Outcome (Int × Option Template) :=
      match f.Typ with
      | .MarkdownType => readEntry forest (fun c => c.Markdown)
      | .HTMLType => readEntry forest (fun c => c.HTML)
      | .OfficeType => readEntry forest (fun c => c.Office)
      | .other _ => .error (.returned "" (some (.ofImpossible {})))
    match selected with
    | .error o => { outcome := o, trace := [] }
    | .ok (cmdTimeout, cmdTemplate) =>
      renderAndRun w cmdTimeout cmdTemplate (.conversion cmdData)

/-- The function `Merge` (process.go:135-155). -/
def Merge (forest : runner) (w : World) (workingDir : String) (filesPaths : List String) : Report :=
  let cmdData : mergeData :=
    { FilesPaths := filesPaths, ResultFilePath := w.MakeFilePath workingDir ".pdf" }
  match readEntry forest (fun c => c.Merge) with
  | .error o => { outcome := o, trace := [] }
  | .ok (cmdTimeout, cmdTemplate) =>
    renderAndRun w cmdTimeout cmdTemplate (.merge cmdData)

/-! ## Series of calls of `run` -/

/-- One call of `run`: the world it meets, the command and the timeout. -/
structure RunCall where
  w : World
  command : String
  timeout : Int

/-- Whether `cmd.Start()` succeeds in the call. -/
def RunCall.starts (c : RunCall) : Bool :=
  match c.w.Start c.command with
  | .error _ => false
  | .ok _ => true

/-- Whether the call leaves behind a child that `run` neither reaped nor
killed. -/
def RunCall.leavesAlive (c : RunCall) : Bool :=
  decide ((run c.w c.command c.timeout).child = some .alive)

/-- The largest number, over all moments of a series of calls made one after the
other, of children that `run` has started and has not yet reaped or killed;
`before` counts those left behind by earlier calls. -/
def peakAlive (before : Nat) : List RunCall → Nat
  | [] => before
  | c :: rest =>
    max (before + (if c.starts then 1 else 0))
      (peakAlive (before + (if c.leavesAlive then 1 else 0)) rest)

/-! ## Calls of `run` in parallel -/

/-- Where one call of `run` stands: before `r.mu.Lock()`; holding the mutex,
before `cmd.Start()`; blocked in the `select` with its child running; in the
timer case, before `Kill`; returned, the deferred `Unlock` done. -/
inductive Pc where
  | called
  | locked
  | selecting (p : Child)
  | killing (p : Child)
  | returned (err : Option error)
deriving DecidableEq, Repr

/-- The call holds the mutex: from `Lock` to the deferred `Unlock`. -/
def Pc.holds : Pc → Bool
  | .locked => true
  | .selecting _ => true
  | .killing _ => true
  | _ => false

/-- The call is in the state Running: its process has been started and `run`
has not returned. -/
def Pc.running : Pc → Bool
  | .selecting _ => true
  | .killing _ => true
  | _ => false

/-- A call of `run` in progress. -/
structure Thread where
  call : RunCall
  pc : Pc

/-- The runner shared by all calls (only its mutex matters to `run`) and the
calls in progress. -/
structure Sys where
  mu : Bool
  threads : List Thread

/-- One step of call number `i`, the other calls standing still. A call waiting
in `Lock` for a held mutex, a call that has returned and a number that names no
call make no step. Every step into `returned` runs the deferred `Unlock`. -/
def Sys.step (s : Sys) (i : Nat) : Sys :=
  match s.threads[i]? with
  | none => s
  | some t =>
    match t.pc with
    | .called =>
      if s.mu then s
      else { mu := true, threads := s.threads.set i { t with pc := .locked } }
    | .locked =>
      match t.call.w.Start t.call.command with
      | .error err =>
        { mu := false
          threads := s.threads.set i { t with pc := .returned (some (.foreign err)) } }
      | .ok p => { s with threads := s.threads.set i { t with pc := .selecting p } }
    | .selecting p =>
      match selectCase t.call.timeout p with
      | .timer => { s with threads := s.threads.set i { t with pc := .killing p } }
      | .done =>
        match p.wait with
        | some err =>
          { mu := false
            threads := s.threads.set i { t with pc := .returned (some (.foreign err)) } }
        | none => { mu := false, threads := s.threads.set i { t with pc := .returned none } }
    | .killing p =>
      match p.kill with
      | some err =>
        { mu := false
          threads := s.threads.set i { t with pc := .returned (some (.foreign err)) } }
      | none =>
        { mu := false
          threads := s.threads.set i { t with pc := .returned (some (.ofTimeout
            { command := t.call.command, timeout := t.call.timeout })) } }
    | .returned _ => s

/-- The calls `calls` all made, none of them past `Lock` yet, the mutex free. -/
def Sys.init (calls : List RunCall) : Sys :=
  { mu := false, threads := calls.map (fun c => { call := c, pc := .called }) }

/-- The system after the steps of a schedule, each entry naming the call that
moves next. -/
def Sys.exec (s : Sys) (schedule : List Nat) : Sys :=
  schedule.foldl Sys.step s

/-- The number of calls that hold the mutex. -/
def Sys.holding (s : Sys) : Nat :=
  s.threads.countP (fun t => t.pc.holds)

/-- The number of calls in the state Running. -/
def Sys.running (s : Sys) : Nat :=
  s.threads.countP (fun t => t.pc.running)

/-- The place a call has reached agrees with what `run` does on its own: the
child it watches is the one `Start` gave, it kills only after the timer case,
and what it has returned is what `run` returns. -/
def Thread.consistent (t : Thread) : Prop :=
  match t.pc with
  | .called => True
  | .locked => True
  | .selecting p => t.call.w.Start t.call.command = .ok p
  | .killing p =>
    t.call.w.Start t.call.command = .ok p ∧ selectCase t.call.timeout p = .timer
  | .returned err => err = (run t.call.w t.call.command t.call.timeout).err

/-! ## Concrete worlds -/

/-- A world in which every path is made by appending the extension, every
template writes its own text, and every command is answered by `start`. -/
def worldOf (start : Except LibError Child) : World :=
  { MakeFilePath := fun dir ext => dir ++ "/result" ++ ext
    Execute := fun t _ => .ok t.text
    Start := fun _ => start }

/-- A child that exits on its own after `ns` nanoseconds with status 0 and can
be killed. -/
def childOk (ns : Nat) : Child :=
  { exitAfter := some ns, wait := none, kill := none, timerOnTie := false }

/-- A child that exits on its own after `ns` nanoseconds with a failure status
and can be killed. -/
def childFailing (ns : Nat) : Child :=
  { exitAfter := some ns, wait := some { msg := "exit status 127" }, kill := none,
    timerOnTie := false }

/-- A child that does not exit on its own and that `Kill` cannot signal. -/
def childUnkillable : Child :=
  { exitAfter := none, wait := none, kill := some { msg := "operation not permitted" },
    timerOnTie := false }

/-- The command fails by itself in the world `w`: `cmd.Start()` fails, or the
shell starts and exits on its own with a failure status. This is what the
environment does with the command `helloworld` of the test, whose shell finds no
such binary and exits with status 127; it says nothing of the text of the
command. -/
def failsOnItsOwn (w : World) (command : String) : Bool :=
  match w.Start command with
  | .error _ => true
  | .ok p => p.exitAfter.isSome && p.wait.isSome

/-- The call ended by returning to its caller. -/
def Outcome.isReturn : Outcome → Bool
  | .panic => false
  | .returned _ _ => true

/-- The event took its template, or its timeout, from the pair `e`. -/
def Event.usesPair (e : CommandConfig) : Event → Prop
  | .rendered t _ _ => e.Template = some t
  | .ran _ timeout _ => e.Timeout = timeout

/-- The call `rep` worked with the pair `entry` and with nothing else: every
template it executed and every timeout it passed to `run` is the one of `entry`;
a template in `entry` was executed first; and a command that the template wrote
was run under the timeout of `entry`. -/
def Report.usesEntry (rep : Report) (entry : Option CommandConfig) : Prop :=
  (∀ ev ∈ rep.trace, ∃ e, entry = some e ∧ ev.usesPair e) ∧
  (∀ e t, entry = some e → e.Template = some t →
    ∃ d res, rep.trace.head? = some (.rendered t d res)) ∧
  (∀ e t d cmd, entry = some e → Event.rendered t d (.ok cmd) ∈ rep.trace →
    ∃ res, Event.ran cmd e.Timeout res ∈ rep.trace)

/-- The call `rep` ended as the template `t` and `run` answer in the world `w`,
for the data `d` handed to the template and the timeout `timeout`: the error
returned is nil exactly when `Execute` wrote a command without error and `run`
on that command returned nil, and the path returned is then the
`ResultFilePath` of `d`; an error of `Execute` is returned with the empty path
and `run` is not called; when `Execute` succeeds `run` is called once, on the
text written, and an error of `run` is returned as it is with the empty
path. -/
def Report.reflects (rep : Report) (w : World) (t : Template) (timeout : Int)
    (d : TemplateData) : Prop :=
  ((∃ path, rep.outcome = .returned path none) ↔
    ∃ cmd, w.Execute t d = .ok cmd ∧ (run w cmd timeout).err = none) ∧
  (∀ cmd, w.Execute t d = .ok cmd → (run w cmd timeout).err = none →
    rep.outcome = .returned d.ResultFilePath none) ∧
  (∀ err, w.Execute t d = .error err →
    rep.outcome = .returned "" (some (.foreign err)) ∧
    rep.trace = [.rendered t d (.error err)]) ∧
  (∀ cmd, w.Execute t d = .ok cmd →
    rep.trace = [.rendered t d (.ok cmd), .ran cmd timeout (run w cmd timeout)] ∧
    ∀ err, (run w cmd timeout).err = some err → rep.outcome = .returned "" (some err))

/-- The call `rep`, which works with the entry `entry` of the configuration of
the runner `r`: when configuration, entry and template are present it ended as
the template and `run` answer, under the timeout of the entry; when one of them
is nil it panicked, having executed no template and called `run` not once. -/
def Report.reflectsEntry (rep : Report) (w : World) (r : runner)
    (entry : CommandsConfig → Option CommandConfig) (d : TemplateData) : Prop :=
  (∀ c e t, r.commandsConfig = some c → entry c = some e → e.Template = some t →
    rep.reflects w t e.Timeout d) ∧
  ((r.commandsConfig = none ∨
      ∃ c, r.commandsConfig = some c ∧
        (entry c = none ∨ ∃ e, entry c = some e ∧ e.Template = none)) →
    rep.outcome = .panic ∧ rep.trace = [])

/-! ## Facts about the timer -/

theorem fireAt_zero : fireAt 0 = 0 := by
  decide

theorem selectCase_zero_timeout (p : Child) (e : Nat) (he : p.exitAfter = some e)
    (hpos : 0 < e) : selectCase 0 p = .timer := by
  unfold selectCase
  rw [he, fireAt_zero]
  simp only [Nat.not_lt_zero, if_false, hpos, if_true]

/-! ## The results of `run` -/

/-- C1: `run` returns nil exactly when the process started without error, the
`select` took the completion of the process (it exited before the timer fired)
and `Wait` reported no error; when the process exits first and `Wait` reports
an error, `run` returns exactly that error. -/
theorem run_nil_iff (w : World) (command : String) (timeout : Int) :
    ((run w command timeout).err = none ↔
      ∃ p, w.Start command = .ok p ∧ selectCase timeout p = .done ∧ p.wait = none) ∧
    (∀ p e, w.Start command = .ok p → selectCase timeout p = .done → p.wait = some e →
      (run w command timeout).err = some (.foreign e)) := by
  constructor
  · constructor
    · intro h
      unfold run at h
      cases hs : w.Start command with
      | error err => simp [hs] at h
      | ok p =>
        simp only [hs] at h
        cases hc : selectCase timeout p with
        | timer =>
          simp only [hc] at h
          cases hk : p.kill <;> simp [hk] at h
        | done =>
          simp only [hc] at h
          cases hw : p.wait with
          | some e => simp [hw] at h
          | none => exact ⟨p, rfl, hc, hw⟩
    · rintro ⟨p, hs, hc, hw⟩
      simp [run, hs, hc, hw]
  · intro p e hs hc hw
    simp [run, hs, hc, hw]

/-- Witness for C1: `echo Hello world` under a 30 second timeout exits first with
status 0 and `run` returns nil; a command exiting first with a failure status
gives back the error of `Wait`. -/
theorem run_nil_iff_witness :
    (run (worldOf (.ok (childOk 1000000))) "echo Hello world" 30).err = none ∧
    (run (worldOf (.ok (childFailing 1000000))) "helloworld" 30).err
      = some (.foreign { msg := "exit status 127" }) :=
  ⟨(run_nil_iff (worldOf (.ok (childOk 1000000))) "echo Hello world" 30).1.2
      ⟨childOk 1000000, rfl, by decide, rfl⟩,
   (run_nil_iff (worldOf (.ok (childFailing 1000000))) "helloworld" 30).2
      (childFailing 1000000) { msg := "exit status 127" } rfl (by decide) rfl⟩

/-- C2: when the process has started, the timer fires before the process exits
and `Kill` succeeds, `run` returns a `commandTimeoutError` holding the command
and the timeout it was given, not nil; a zero timeout with a process that runs
for a positive time is such a case. -/
theorem run_timeout (w : World) (command : String) (timeout : Int) (p : Child)
    (hstart : w.Start command = .ok p) (hkill : p.kill = none)
    (hfirst : selectCase timeout p = .timer ∨
      (timeout = 0 ∧ ∃ e, p.exitAfter = some e ∧ 0 < e)) :
    (run w command timeout).err
        = some (.ofTimeout { command := command, timeout := timeout }) ∧
    (run w command timeout).err ≠ none := by
  have hsel : selectCase timeout p = .timer := by
    rcases hfirst with h | ⟨ht, e, he, hpos⟩
    · exact h
    · subst ht
      exact selectCase_zero_timeout p e he hpos
  simp [run, hstart, hsel, hkill]

/-- Witness for C2: `sleep 5` under a zero timeout. -/
theorem run_timeout_witness :
    (run (worldOf (.ok (childOk 5000000000))) "sleep 5" 0).err
        = some (.ofTimeout { command := "sleep 5", timeout := 0 }) ∧
    (run (worldOf (.ok (childOk 5000000000))) "sleep 5" 0).err ≠ none :=
  run_timeout (worldOf (.ok (childOk 5000000000))) "sleep 5" 0 (childOk 5000000000) rfl rfl
    (Or.inr ⟨rfl, 5000000000, rfl, by decide⟩)

/-- C6 fails as stated: after a failed `Kill` the value `run` returns is the
error of `Kill` as it came, and the very same value is returned for a failed
start and for a failed `Wait`; nothing in it tells the three apart. -/
theorem kill_error_not_distinguished :
    ((worldOf (.ok childUnkillable)).Start "sleep 5" = .ok childUnkillable ∧
      selectCase 0 childUnkillable = .timer ∧
      childUnkillable.kill = some { msg := "operation not permitted" }) ∧
    (run (worldOf (.ok childUnkillable)) "sleep 5" 0).err
      = (run (worldOf (.error { msg := "operation not permitted" })) "sleep 5" 0).err ∧
    (run (worldOf (.ok childUnkillable)) "sleep 5" 0).err
      = (run (worldOf (.ok { exitAfter := some 1000, wait := some { msg := "operation not permitted" },
                             kill := none, timerOnTie := false })) "sleep 5" 30).err :=
  ⟨⟨rfl, by decide, rfl⟩, by decide, by decide⟩

/-- C6, amended: when the process has started, the timer fires first and `Kill`
fails, `run` returns exactly the error of `Kill`, which is not nil and is not a
`commandTimeoutError`. -/
theorem run_kill_failure (w : World) (command : String) (timeout : Int) (p : Child)
    (e : LibError) (hstart : w.Start command = .ok p)
    (hsel : selectCase timeout p = .timer) (hkill : p.kill = some e) :
    (run w command timeout).err = some (.foreign e) ∧
    (run w command timeout).err ≠ none ∧
    ∀ te : commandTimeoutError, (run w command timeout).err ≠ some (.ofTimeout te) := by
  simp [run, hstart, hsel, hkill]

/-- Witness for the amended C6: a child that cannot be signalled, under a zero
timeout. -/
theorem run_kill_failure_witness :
    (run (worldOf (.ok childUnkillable)) "sleep 5" 0).err
      = some (.foreign { msg := "operation not permitted" }) ∧
    (run (worldOf (.ok childUnkillable)) "sleep 5" 0).err ≠ none ∧
    ∀ te : commandTimeoutError,
      (run (worldOf (.ok childUnkillable)) "sleep 5" 0).err ≠ some (.ofTimeout te) :=
  run_kill_failure (worldOf (.ok childUnkillable)) "sleep 5" 0 childUnkillable
    { msg := "operation not permitted" } rfl (by decide) rfl

/-- C8 fails as stated: under a zero timeout the shell that would report the
missing binary after two milliseconds is killed first, and `run` returns the
`commandTimeoutError`. -/
theorem missing_binary_times_out :
    ((worldOf (.ok (childFailing 2000000))).Start "helloworld"
        = .ok (childFailing 2000000) ∧
      (childFailing 2000000).exitAfter = some 2000000 ∧
      (childFailing 2000000).wait = some { msg := "exit status 127" }) ∧
    (run (worldOf (.ok (childFailing 2000000))) "helloworld" 0).err
      = some (.ofTimeout { command := "helloworld", timeout := 0 }) :=
  ⟨⟨rfl, rfl, rfl⟩, by decide⟩

/-- C8, amended: for every timeout, when the start of the command fails or its
shell exits on its own with a failure status (as for the bare name of a missing
binary), `run` never returns nil; and whenever the timer does not fire before
the shell exits, the error returned is the error of the start or the error of
`Wait`, so not a `commandTimeoutError`. -/
theorem run_failing_command (w : World) (command : String) (timeout : Int)
    (hfails : failsOnItsOwn w command = true) :
    (run w command timeout).err ≠ none ∧
    ((∀ p, w.Start command = .ok p → selectCase timeout p = .done) →
      (∃ e, (run w command timeout).err = some (.foreign e) ∧
        (w.Start command = .error e ∨ ∃ p, w.Start command = .ok p ∧ p.wait = some e)) ∧
      ∀ te : commandTimeoutError, (run w command timeout).err ≠ some (.ofTimeout te)) := by
  unfold failsOnItsOwn at hfails
  cases hs : w.Start command with
  | error err =>
    refine ⟨by simp [run, hs], fun _ => ⟨⟨err, by simp [run, hs], Or.inl rfl⟩, ?_⟩⟩
    intro te
    simp [run, hs]
  | ok p =>
    simp only [hs, Bool.and_eq_true, Option.isSome_iff_exists] at hfails
    obtain ⟨_, e, hw⟩ := hfails
    constructor
    · unfold run
      simp only [hs]
      cases hc : selectCase timeout p with
      | timer => cases hk : p.kill <;> simp
      | done => simp [hw]
    · intro hdone
      have hc := hdone p rfl
      refine ⟨⟨e, by simp [run, hs, hc, hw], Or.inr ⟨p, rfl, hw⟩⟩, ?_⟩
      intro te
      simp [run, hs, hc, hw]

/-- Witness for the amended C8: the broken command of the test, whose shell
fails after two milliseconds, under the 30 second timeout of the test. -/
theorem run_failing_command_witness :
    failsOnItsOwn (worldOf (.ok (childFailing 2000000))) "helloworld" = true ∧
    (run (worldOf (.ok (childFailing 2000000))) "helloworld" 30).err ≠ none ∧
    (run (worldOf (.ok (childFailing 2000000))) "helloworld" 30).err
      = some (.foreign { msg := "exit status 127" }) :=
  ⟨by decide,
   (run_failing_command (worldOf (.ok (childFailing 2000000))) "helloworld" 30 (by decide)).1,
   by decide⟩

/-! ## The child of `run` -/

theorem run_child_of_kill_ok (w : World) (command : String) (timeout : Int) (p : Child)
    (hstart : w.Start command = .ok p)
    (hkill : selectCase timeout p = .timer → p.kill = none) :
    (run w command timeout).child = some .reaped ∨
    (run w command timeout).child = some .killed := by
  unfold run
  simp only [hstart]
  cases hc : selectCase timeout p with
  | timer => simp [hkill hc]
  | done => cases hw : p.wait <;> simp

theorem leavesAlive_of_kill_ok (c : RunCall)
    (hkill : ∀ q, c.w.Start c.command = .ok q → selectCase c.timeout q = .timer →
      q.kill = none) : c.leavesAlive = false := by
  unfold RunCall.leavesAlive
  cases hs : c.w.Start c.command with
  | error err => simp [run, hs]
  | ok q =>
    rcases run_child_of_kill_ok c.w c.command c.timeout q hs (hkill q hs) with h | h <;>
      simp [h]

theorem peakAlive_le (calls : List RunCall) (n : Nat)
    (h : ∀ c ∈ calls, c.leavesAlive = false) : peakAlive n calls ≤ n + 1 := by
  induction calls generalizing n with
  | nil => simp [peakAlive]
  | cons c rest ih =>
    have hc : c.leavesAlive = false := h c (List.mem_cons_self c rest)
    have hrest : peakAlive n rest ≤ n + 1 :=
      ih n (fun d hd => h d (List.mem_cons_of_mem c hd))
    simp only [peakAlive, hc, Bool.false_eq_true, if_false, Nat.add_zero]
    refine max_le ?_ hrest
    split <;> omega

/-- C9 fails as stated: when the timer fires and `Kill` fails on a child that is
still running, `run` returns with that child alive; two such calls in a row
leave two children of `run` alive at once. -/
theorem run_leaves_child_alive :
    (run (worldOf (.ok childUnkillable)) "sleep 5" 0).child = some .alive ∧
    peakAlive 0 [{ w := worldOf (.ok childUnkillable), command := "sleep 5", timeout := 0 },
                 { w := worldOf (.ok childUnkillable), command := "sleep 5", timeout := 0 }] = 2 := by
  decide

/-- C9, amended: on every return path of a call that started a process, other
than the one on which `Kill` failed, the child has been reaped or killed when
`run` returns; and over a series of calls in none of which `Kill` fails, at
most one child of `run` is alive at any moment. -/
theorem run_child_destroyed (w : World) (command : String) (timeout : Int) (p : Child)
    (hstart : w.Start command = .ok p)
    (hkill : selectCase timeout p = .timer → p.kill = none) :
    ((run w command timeout).child = some .reaped ∨
      (run w command timeout).child = some .killed) ∧
    ∀ calls : List RunCall,
      (∀ c ∈ calls, ∀ q, c.w.Start c.command = .ok q → selectCase c.timeout q = .timer →
        q.kill = none) →
      peakAlive 0 calls ≤ 1 :=
  ⟨run_child_of_kill_ok w command timeout p hstart hkill,
   fun calls h => peakAlive_le calls 0 (fun c hc => leavesAlive_of_kill_ok c (h c hc))⟩

/-- Witness for the amended C9: `sleep 5` killed under a zero timeout. -/
theorem run_child_destroyed_witness :
    (run (worldOf (.ok (childOk 5000000000))) "sleep 5" 0).child = some .reaped ∨
    (run (worldOf (.ok (childOk 5000000000))) "sleep 5" 0).child = some .killed :=
  (run_child_destroyed (worldOf (.ok (childOk 5000000000))) "sleep 5" 0 (childOk 5000000000)
    rfl (fun _ => rfl)).1

/-! ## Unconv and Merge -/

/-- A configuration with the same template and timeout for every kind. -/
def configOf (timeout : Int) (text : String) : CommandsConfig :=
  { Markdown := some { Timeout := timeout, Template := some { text := text } }
    HTML := some { Timeout := timeout, Template := some { text := text } }
    Office := some { Timeout := timeout, Template := some { text := text } }
    Merge := some { Timeout := timeout, Template := some { text := text } } }

theorem renderAndRun_error (w : World) (cmdTimeout : Int) (t : Template)
    (cmdData : TemplateData) (err : LibError) (hx : w.Execute t cmdData = .error err) :
    renderAndRun w cmdTimeout (some t) cmdData
      = { outcome := .returned "" (some (.foreign err))
          trace := [.rendered t cmdData (.error err)] } := by
  simp [renderAndRun, hx]

theorem renderAndRun_failed (w : World) (cmdTimeout : Int) (t : Template)
    (cmdData : TemplateData) (data : String) (err : error)
    (hx : w.Execute t cmdData = .ok data) (hr : (run w data cmdTimeout).err = some err) :
    renderAndRun w cmdTimeout (some t) cmdData
      = { outcome := .returned "" (some err)
          trace := [.rendered t cmdData (.ok data),
                    .ran data cmdTimeout (run w data cmdTimeout)] } := by
  simp [renderAndRun, hx, hr]

theorem renderAndRun_done (w : World) (cmdTimeout : Int) (t : Template)
    (cmdData : TemplateData) (data : String)
    (hx : w.Execute t cmdData = .ok data) (hr : (run w data cmdTimeout).err = none) :
    renderAndRun w cmdTimeout (some t) cmdData
      = { outcome := .returned cmdData.ResultFilePath none
          trace := [.rendered t cmdData (.ok data),
                    .ran data cmdTimeout (run w data cmdTimeout)] } := by
  simp [renderAndRun, hx, hr]

theorem renderAndRun_isReturn (w : World) (cmdTimeout : Int) (t : Template)
    (cmdData : TemplateData) :
    (renderAndRun w cmdTimeout (some t) cmdData).outcome.isReturn = true := by
  cases hx : w.Execute t cmdData with
  | error err => rw [renderAndRun_error w cmdTimeout t cmdData err hx]; rfl
  | ok data =>
    cases hr : (run w data cmdTimeout).err with
    | none => rw [renderAndRun_done w cmdTimeout t cmdData data hx hr]; rfl
    | some err => rw [renderAndRun_failed w cmdTimeout t cmdData data err hx hr]; rfl

theorem renderAndRun_usesEntry (w : World) (e : CommandConfig) (cmdData : TemplateData) :
    (renderAndRun w e.Timeout e.Template cmdData).usesEntry (some e) := by
  cases ht : e.Template with
  | none =>
    simp only [renderAndRun, Report.usesEntry]
    refine ⟨by simp, ?_, by simp⟩
    intro e2 t2 he2 ht2
    simp only [Option.some.injEq] at he2
    subst he2
    rw [ht] at ht2
    exact absurd ht2 (by simp)
  | some t =>
    have hpair : ∀ (e2 : CommandConfig) (t2 : Template),
        some e = some e2 → e2.Template = some t2 → t2 = t := by
      intro e2 t2 he2 ht2
      simp only [Option.some.injEq] at he2
      subst he2
      rw [ht] at ht2
      simp only [Option.some.injEq] at ht2
      exact ht2.symm
    cases hx : w.Execute t cmdData with
    | error err =>
      rw [renderAndRun_error w e.Timeout t cmdData err hx]
      simp only [Report.usesEntry]
      refine ⟨?_, ?_, ?_⟩
      · intro ev hev
        simp only [List.mem_singleton] at hev
        subst hev
        exact ⟨e, rfl, ht⟩
      · intro e2 t2 he2 ht2
        rw [hpair e2 t2 he2 ht2]
        exact ⟨_, _, rfl⟩
      · intro e2 t2 d cmd _ hm
        simp at hm
    | ok data =>
      have hboth : Report.usesEntry
          { outcome := (renderAndRun w e.Timeout (some t) cmdData).outcome
            trace := [.rendered t cmdData (.ok data),
                      .ran data e.Timeout (run w data e.Timeout)] } (some e) := by
        simp only [Report.usesEntry]
        refine ⟨?_, ?_, ?_⟩
        · intro ev hev
          simp only [List.mem_cons, List.mem_singleton, List.not_mem_nil, or_false] at hev
          rcases hev with hev | hev
          · subst hev
            exact ⟨e, rfl, ht⟩
          · subst hev
            exact ⟨e, rfl, rfl⟩
        · intro e2 t2 he2 ht2
          rw [hpair e2 t2 he2 ht2]
          exact ⟨_, _, rfl⟩
        · intro e2 t2 d cmd he2 hm
          simp only [Option.some.injEq] at he2
          subst he2
          simp at hm
          refine ⟨run w data e.Timeout, ?_⟩
          rw [hm.2.2]
          simp
      cases hr : (run w data e.Timeout).err with
      | none =>
        rw [renderAndRun_done w e.Timeout t cmdData data hx hr] at hboth ⊢
        exact hboth
      | some err =>
        rw [renderAndRun_failed w e.Timeout t cmdData data err hx hr] at hboth ⊢
        exact hboth

theorem renderAndRun_reflects (w : World) (cmdTimeout : Int) (t : Template)
    (cmdData : TemplateData) :
    (renderAndRun w cmdTimeout (some t) cmdData).reflects w t cmdTimeout cmdData := by
  unfold Report.reflects
  cases hx : w.Execute t cmdData with
  | error err =>
    rw [renderAndRun_error w cmdTimeout t cmdData err hx]
    refine ⟨⟨fun h => ?_, fun h => ?_⟩, ?_, ?_, ?_⟩
    · obtain ⟨path, hp⟩ := h
      simp at hp
    · obtain ⟨cmd, hcmd, _⟩ := h
      simp at hcmd
    · intro cmd hcmd
      simp at hcmd
    · intro e he
      simp only [Except.error.injEq] at he
      subst he
      exact ⟨rfl, rfl⟩
    · intro cmd hcmd
      simp at hcmd
  | ok data =>
    cases hr : (run w data cmdTimeout).err with
    | none =>
      rw [renderAndRun_done w cmdTimeout t cmdData data hx hr]
      refine ⟨⟨fun _ => ⟨data, rfl, hr⟩, fun _ => ⟨_, rfl⟩⟩, ?_, ?_, ?_⟩
      · intro cmd hcmd _
        rfl
      · intro e he
        simp at he
      · intro cmd hcmd
        simp only [Except.ok.injEq] at hcmd
        subst hcmd
        refine ⟨rfl, ?_⟩
        intro e he
        rw [hr] at he
        simp at he
    | some err =>
      rw [renderAndRun_failed w cmdTimeout t cmdData data err hx hr]
      refine ⟨⟨fun h => ?_, fun h => ?_⟩, ?_, ?_, ?_⟩
      · obtain ⟨path, hp⟩ := h
        simp at hp
      · obtain ⟨cmd, hcmd, hnil⟩ := h
        simp only [Except.ok.injEq] at hcmd
        subst hcmd
        rw [hr] at hnil
        simp at hnil
      · intro cmd hcmd hnil
        simp only [Except.ok.injEq] at hcmd
        subst hcmd
        rw [hr] at hnil
        simp at hnil
      · intro e he
        simp at he
      · intro cmd hcmd
        simp only [Except.ok.injEq] at hcmd
        subst hcmd
        refine ⟨rfl, ?_⟩
        intro e he
        rw [hr] at he
        simp only [Option.some.injEq] at he
        rw [he]

theorem reflectsEntry_of_readEntry (w : World) (r : runner)
    (entry : CommandsConfig → Option CommandConfig) (d : TemplateData) :
    Report.reflectsEntry
      (match readEntry r entry with
        | .error o => ({ outcome := o, trace := [] } : Report)
        | .ok (cmdTimeout, cmdTemplate) => renderAndRun w cmdTimeout cmdTemplate d)
      w r entry d := by
  constructor
  · intro c e t hc he ht
    simp only [readEntry, hc, he, ht]
    exact renderAndRun_reflects w e.Timeout t d
  · intro h
    rcases h with hc | ⟨c, hc, he | ⟨e, he, ht⟩⟩
    · simp [readEntry, hc]
    · simp [readEntry, hc, he]
    · simp [readEntry, hc, he, ht, renderAndRun]

/-- C3: for every state of the configuration and every file whose type is
none of Markdown, HTML and Office, `Unconv` returns the empty path and an
`impossibleConversionError`, having executed no template and called `run` not
once (so no process was started). -/
theorem Unconv_impossible (forest : runner) (w : World) (workingDir : String) (f : File)
    (hmarkdown : f.Typ ≠ .MarkdownType) (hhtml : f.Typ ≠ .HTMLType)
    (hoffice : f.Typ ≠ .OfficeType) :
    (Unconv forest w workingDir (some f)).outcome
      = .returned "" (some (.ofImpossible {})) ∧
    (Unconv forest w workingDir (some f)).trace = [] := by
  obtain ⟨path, typ⟩ := f
  cases typ with
  | MarkdownType => exact absurd rfl hmarkdown
  | HTMLType => exact absurd rfl hhtml
  | OfficeType => exact absurd rfl hoffice
  | other n => exact ⟨rfl, rfl⟩

/-- Witness for C3: a PDF file, with the configuration of the tests loaded. -/
theorem Unconv_impossible_witness :
    (Unconv (Load forest (some (configOf 30 "convert"))) (worldOf (.ok (childOk 1000)))
        "test" (some { Path := "file.pdf", Typ := .other 0 })).outcome
      = .returned "" (some (.ofImpossible {})) ∧
    (Unconv (Load forest (some (configOf 30 "convert"))) (worldOf (.ok (childOk 1000)))
        "test" (some { Path := "file.pdf", Typ := .other 0 })).trace = [] :=
  Unconv_impossible (Load forest (some (configOf 30 "convert"))) (worldOf (.ok (childOk 1000)))
    "test" { Path := "file.pdf", Typ := .other 0 } (by decide) (by decide) (by decide)

theorem Unconv_loaded (r : runner) (c : CommandsConfig) (w : World) (workingDir : String)
    (path : String) (hc : r.commandsConfig = some c) :
    (∀ e, c.Markdown = some e →
      Unconv r w workingDir (some { Path := path, Typ := .MarkdownType })
        = renderAndRun w e.Timeout e.Template (.conversion
            { FilePath := path, ResultFilePath := w.MakeFilePath workingDir ".pdf" })) ∧
    (∀ e, c.HTML = some e →
      Unconv r w workingDir (some { Path := path, Typ := .HTMLType })
        = renderAndRun w e.Timeout e.Template (.conversion
            { FilePath := path, ResultFilePath := w.MakeFilePath workingDir ".pdf" })) ∧
    (∀ e, c.Office = some e →
      Unconv r w workingDir (some { Path := path, Typ := .OfficeType })
        = renderAndRun w e.Timeout e.Template (.conversion
            { FilePath := path, ResultFilePath := w.MakeFilePath workingDir ".pdf" })) := by
  refine ⟨?_, ?_, ?_⟩ <;> intro e he <;> simp [Unconv, readEntry, hc, he]

theorem Merge_loaded (r : runner) (c : CommandsConfig) (w : World) (workingDir : String)
    (filesPaths : List String) (e : CommandConfig) (hc : r.commandsConfig = some c)
    (he : c.Merge = some e) :
    Merge r w workingDir filesPaths
      = renderAndRun w e.Timeout e.Template (.merge
          { FilesPaths := filesPaths, ResultFilePath := w.MakeFilePath workingDir ".pdf" }) := by
  simp [Merge, readEntry, hc, he]

theorem usesEntry_of_no_trace (o : Outcome) :
    Report.usesEntry { outcome := o, trace := [] } none := by
  simp [Report.usesEntry]

theorem Unconv_usesEntry (r : runner) (c : CommandsConfig) (w : World) (workingDir : String)
    (path : String) (hc : r.commandsConfig = some c) :
    (Unconv r w workingDir (some { Path := path, Typ := .MarkdownType })).usesEntry c.Markdown ∧
    (Unconv r w workingDir (some { Path := path, Typ := .HTMLType })).usesEntry c.HTML ∧
    (Unconv r w workingDir (some { Path := path, Typ := .OfficeType })).usesEntry c.Office := by
  obtain ⟨h1, h2, h3⟩ := Unconv_loaded r c w workingDir path hc
  refine ⟨?_, ?_, ?_⟩
  · cases he : c.Markdown with
    | none =>
      have : Unconv r w workingDir (some { Path := path, Typ := .MarkdownType })
          = { outcome := .panic, trace := [] } := by simp [Unconv, readEntry, hc, he]
      rw [this]; exact usesEntry_of_no_trace _
    | some e => rw [h1 e he]; exact renderAndRun_usesEntry w e _
  · cases he : c.HTML with
    | none =>
      have : Unconv r w workingDir (some { Path := path, Typ := .HTMLType })
          = { outcome := .panic, trace := [] } := by simp [Unconv, readEntry, hc, he]
      rw [this]; exact usesEntry_of_no_trace _
    | some e => rw [h2 e he]; exact renderAndRun_usesEntry w e _
  · cases he : c.Office with
    | none =>
      have : Unconv r w workingDir (some { Path := path, Typ := .OfficeType })
          = { outcome := .panic, trace := [] } := by simp [Unconv, readEntry, hc, he]
      rw [this]; exact usesEntry_of_no_trace _
    | some e => rw [h3 e he]; exact renderAndRun_usesEntry w e _

theorem Merge_usesEntry (r : runner) (c : CommandsConfig) (w : World) (workingDir : String)
    (filesPaths : List String) (hc : r.commandsConfig = some c) :
    (Merge r w workingDir filesPaths).usesEntry c.Merge := by
  cases he : c.Merge with
  | none =>
    have : Merge r w workingDir filesPaths = { outcome := .panic, trace := [] } := by
      simp [Merge, readEntry, hc, he]
    rw [this]; exact usesEntry_of_no_trace _
  | some e => rw [Merge_loaded r c w workingDir filesPaths e hc he]; exact renderAndRun_usesEntry w e _

/-- C4: after any series of `Load` calls that ends with `Load(c)`, the runner
holds `c`; `Unconv` then works with the pair `c.Markdown` for a Markdown file,
`c.HTML` for an HTML file and `c.Office` for an Office file, and `Merge` with the
pair `c.Merge`: the template executed and the timeout passed to `run` are those
of that one pair. `Unconv` and `Merge` only read the runner, so this holds for
every call made until the next `Load`. -/
theorem Load_then_use (r0 : runner) (cs : List (Option CommandsConfig)) (c : CommandsConfig)
    (w : World) (workingDir : String) (path : String) (filesPaths : List String) :
    (Load (cs.foldl Load r0) (some c)).commandsConfig = some c ∧
    (Unconv (Load (cs.foldl Load r0) (some c)) w workingDir
      (some { Path := path, Typ := .MarkdownType })).usesEntry c.Markdown ∧
    (Unconv (Load (cs.foldl Load r0) (some c)) w workingDir
      (some { Path := path, Typ := .HTMLType })).usesEntry c.HTML ∧
    (Unconv (Load (cs.foldl Load r0) (some c)) w workingDir
      (some { Path := path, Typ := .OfficeType })).usesEntry c.Office ∧
    (Merge (Load (cs.foldl Load r0) (some c)) w workingDir filesPaths).usesEntry c.Merge :=
  ⟨rfl,
   (Unconv_usesEntry (Load (cs.foldl Load r0) (some c)) c w workingDir path rfl).1,
   (Unconv_usesEntry (Load (cs.foldl Load r0) (some c)) c w workingDir path rfl).2.1,
   (Unconv_usesEntry (Load (cs.foldl Load r0) (some c)) c w workingDir path rfl).2.2,
   Merge_usesEntry (Load (cs.foldl Load r0) (some c)) c w workingDir filesPaths rfl⟩

/-- The configuration of the timeout test loaded over the regular one: `Merge`
then runs under the zero timeout and reports it. -/
theorem Merge_after_second_Load :
    (Merge (Load (Load forest (some (configOf 30 "merge"))) (some (configOf 0 "merge")))
        (worldOf (.ok (childOk 200000000))) "test" ["a.pdf", "a.pdf"]).outcome
      = .returned "" (some (.ofTimeout { command := "merge", timeout := 0 })) := by
  decide

/-- C5: `Unconv` on a file of each convertible type and `Merge` on a list of
paths return a nil error exactly when the template of their kind is executed
without error and `run`, on the text it wrote and under the timeout of the same
kind, returns nil, and the path returned is then the `ResultFilePath` handed to
the template; an error of the template is returned with the empty path and
`run` is not called; an error of `run` is returned as it is, with the empty
path. (With a nil configuration, entry or template the call panics and returns
nothing.) -/
theorem Unconv_Merge_errors (r : runner) (w : World) (workingDir : String)
    (path : String) (filesPaths : List String) :
    (Unconv r w workingDir (some { Path := path, Typ := .MarkdownType })).reflectsEntry w r
      (fun c => c.Markdown)
      (.conversion { FilePath := path, ResultFilePath := w.MakeFilePath workingDir ".pdf" }) ∧
    (Unconv r w workingDir (some { Path := path, Typ := .HTMLType })).reflectsEntry w r
      (fun c => c.HTML)
      (.conversion { FilePath := path, ResultFilePath := w.MakeFilePath workingDir ".pdf" }) ∧
    (Unconv r w workingDir (some { Path := path, Typ := .OfficeType })).reflectsEntry w r
      (fun c => c.Office)
      (.conversion { FilePath := path, ResultFilePath := w.MakeFilePath workingDir ".pdf" }) ∧
    (Merge r w workingDir filesPaths).reflectsEntry w r
      (fun c => c.Merge)
      (.merge { FilesPaths := filesPaths,
                ResultFilePath := w.MakeFilePath workingDir ".pdf" }) :=
  ⟨reflectsEntry_of_readEntry w r (fun c => c.Markdown) _,
   reflectsEntry_of_readEntry w r (fun c => c.HTML) _,
   reflectsEntry_of_readEntry w r (fun c => c.Office) _,
   reflectsEntry_of_readEntry w r (fun c => c.Merge) _⟩

/-- Witness for C5: with the configuration of the tests loaded, a Markdown file
whose command exits with status 0 within the timeout is converted, and the path
returned is the one made for the result. -/
theorem Unconv_Merge_errors_witness :
    (Unconv (Load forest (some (configOf 30 "convert"))) (worldOf (.ok (childOk 200000000)))
        "test" (some { Path := "file.md", Typ := .MarkdownType })).outcome
      = .returned "test/result.pdf" none :=
  ((Unconv_Merge_errors (Load forest (some (configOf 30 "convert")))
      (worldOf (.ok (childOk 200000000))) "test" "file.md" []).1.1
    (configOf 30 "convert") { Timeout := 30, Template := some { text := "convert" } }
    { text := "convert" } rfl rfl rfl).2.1 "convert" rfl (by decide)

/-- A conversion that succeeds returns the path made for its result, and a merge
under a zero timeout returns the timeout error of `run` with the empty path. -/
theorem Unconv_Merge_examples :
    (Unconv (Load forest (some (configOf 30 "convert"))) (worldOf (.ok (childOk 200000000)))
        "test" (some { Path := "file.md", Typ := .MarkdownType })).outcome
      = .returned "test/result.pdf" none ∧
    (Merge (Load forest (some (configOf 0 "merge"))) (worldOf (.ok (childOk 200000000)))
        "test" ["a.pdf", "a.pdf"]).outcome
      = .returned "" (some (.ofTimeout { command := "merge", timeout := 0 })) := by
  decide

/-- C7 fails as stated: while `Load` has not been called the pointer
`forest.commandsConfig` is nil, and `Unconv` on a Markdown file and `Merge`
dereference it and panic. -/
theorem Unconv_Merge_panic_before_Load :
    (Unconv forest (worldOf (.ok (childOk 1000))) "test"
        (some { Path := "file.md", Typ := .MarkdownType })).outcome = .panic ∧
    (Merge forest (worldOf (.ok (childOk 1000))) "test" ["a.pdf", "a.pdf"]).outcome = .panic := by
  decide

/-- C7, amended: once a configuration is loaded in which the entry of the
selected kind and its template are present, `Unconv` on a file and `Merge` end
by returning a path and an error, without panic; for a file of no convertible
type `Unconv` does so in every state of the configuration. -/
theorem Unconv_Merge_return (r : runner) (c : CommandsConfig) (w : World)
    (workingDir : String) (path : String) (filesPaths : List String)
    (hc : r.commandsConfig = some c) :
    (∀ e t, c.Markdown = some e → e.Template = some t →
      (Unconv r w workingDir (some { Path := path, Typ := .MarkdownType })).outcome.isReturn
        = true) ∧
    (∀ e t, c.HTML = some e → e.Template = some t →
      (Unconv r w workingDir (some { Path := path, Typ := .HTMLType })).outcome.isReturn
        = true) ∧
    (∀ e t, c.Office = some e → e.Template = some t →
      (Unconv r w workingDir (some { Path := path, Typ := .OfficeType })).outcome.isReturn
        = true) ∧
    (∀ e t, c.Merge = some e → e.Template = some t →
      (Merge r w workingDir filesPaths).outcome.isReturn = true) ∧
    (∀ (r2 : runner) (n : Nat),
      (Unconv r2 w workingDir (some { Path := path, Typ := .other n })).outcome.isReturn
        = true) := by
  obtain ⟨h1, h2, h3⟩ := Unconv_loaded r c w workingDir path hc
  refine ⟨?_, ?_, ?_, ?_, ?_⟩
  · intro e t he ht
    rw [h1 e he, ht]
    exact renderAndRun_isReturn w e.Timeout t _
  · intro e t he ht
    rw [h2 e he, ht]
    exact renderAndRun_isReturn w e.Timeout t _
  · intro e t he ht
    rw [h3 e he, ht]
    exact renderAndRun_isReturn w e.Timeout t _
  · intro e t he ht
    rw [Merge_loaded r c w workingDir filesPaths e hc he, ht]
    exact renderAndRun_isReturn w e.Timeout t _
  · intro r2 n
    rfl

/-- Witness for the amended C7: the configuration of the tests loaded, a Markdown
file. -/
theorem Unconv_Merge_return_witness :
    (Unconv (Load forest (some (configOf 30 "convert"))) (worldOf (.ok (childOk 1000))) "test"
        (some { Path := "file.md", Typ := .MarkdownType })).outcome.isReturn = true :=
  (Unconv_Merge_return (Load forest (some (configOf 30 "convert"))) (configOf 30 "convert")
    (worldOf (.ok (childOk 1000))) "test" "file.md" [] rfl).1
    { Timeout := 30, Template := some { text := "convert" } } { text := "convert" } rfl rfl

/-! ## Calls of `run` in parallel -/

theorem countP_set_add {α : Type} (q : α → Bool) (l : List α) (i : Nat) (a b : α)
    (h : l[i]? = some a) :
    (l.set i b).countP q + (if q a then 1 else 0) = l.countP q + (if q b then 1 else 0) := by
  induction l generalizing i with
  | nil => simp at h
  | cons x xs ih =>
    cases i with
    | zero =>
      simp only [List.getElem?_cons_zero, Option.some.injEq] at h
      subst h
      simp only [List.set_cons_zero, List.countP_cons]
      omega
    | succ n =>
      simp only [List.getElem?_cons_succ] at h
      have := ih n h
      simp only [List.set_cons_succ, List.countP_cons]
      omega

theorem map_set_same {α β : Type} (f : α → β) (l : List α) (i : Nat) (a b : α)
    (h : l[i]? = some a) (hf : f b = f a) : (l.set i b).map f = l.map f := by
  induction l generalizing i with
  | nil => simp
  | cons x xs ih =>
    cases i with
    | zero =>
      simp only [List.getElem?_cons_zero, Option.some.injEq] at h
      subst h
      simp [hf]
    | succ n =>
      simp only [List.getElem?_cons_succ] at h
      simp [ih n h]

/-- What holds of the system at every moment: the mutex is held exactly when
one call is between `Lock` and its return, no call is there otherwise; the
calls are the ones that were made; each stands where `run` would. -/
structure Sys.Inv (calls : List RunCall) (s : Sys) : Prop where
  mutex : s.holding = if s.mu then 1 else 0
  same : s.threads.map (fun t => t.call) = calls
  consistent : ∀ t ∈ s.threads, t.consistent

theorem Sys.Inv.set {calls : List RunCall} {s : Sys} (hinv : Sys.Inv calls s) (i : Nat)
    (t : Thread) (pc : Pc) (mu : Bool) (ht : s.threads[i]? = some t)
    (hmu : (if mu then 1 else 0) + (if t.pc.holds then 1 else 0)
      = (if s.mu then 1 else 0) + (if pc.holds then 1 else 0))
    (hcons : Thread.consistent { t with pc := pc }) :
    Sys.Inv calls { mu := mu, threads := s.threads.set i { t with pc := pc } } := by
  refine ⟨?_, ?_, ?_⟩
  · have hcount := countP_set_add (fun t => t.pc.holds) s.threads i t { t with pc := pc } ht
    have hm := hinv.mutex
    simp only [Sys.holding] at hm ⊢
    simp only at hcount
    omega
  · rw [← hinv.same]
    exact map_set_same (fun u : Thread => u.call) s.threads i t { t with pc := pc } ht rfl
  · intro u hu
    rcases List.mem_or_eq_of_mem_set hu with h | h
    · exact hinv.consistent u h
    · rw [h]; exact hcons

theorem Sys.Inv.step {calls : List RunCall} {s : Sys} (hinv : Sys.Inv calls s) (i : Nat) :
    Sys.Inv calls (s.step i) := by
  unfold Sys.step
  cases ht : s.threads[i]? with
  | none => exact hinv
  | some t =>
    have hmem : t ∈ s.threads := List.getElem?_mem ht
    have hcons := hinv.consistent t hmem
    have hpos : t.pc.holds = true → s.mu = true := by
      intro hh
      have hle : 0 < s.holding := by
        simp only [Sys.holding]
        exact List.countP_pos_iff.mpr ⟨t, hmem, hh⟩
      have hm := hinv.mutex
      cases hmu : s.mu with
      | true => rfl
      | false => rw [hmu] at hm; simp at hm; omega
    simp only
    cases hpc : t.pc with
    | called =>
      simp only
      cases hmu : s.mu with
      | true => simpa using hinv
      | false =>
        simp only [Bool.false_eq_true, if_false]
        refine hinv.set i t .locked true ht ?_ ?_
        · simp [hpc, hmu, Pc.holds]
        · simp [Thread.consistent]
    | locked =>
      have hmu := hpos (by simp [hpc, Pc.holds])
      simp only
      cases hs : t.call.w.Start t.call.command with
      | error err =>
        refine hinv.set i t _ false ht ?_ ?_
        · simp [hpc, hmu, Pc.holds]
        · simp [Thread.consistent, run, hs]
      | ok p =>
        refine hinv.set i t _ s.mu ht ?_ ?_
        · simp [hpc, Pc.holds]
        · simp [Thread.consistent, hs]
    | selecting p =>
      have hmu := hpos (by simp [hpc, Pc.holds])
      rw [Thread.consistent, hpc] at hcons
      simp only at hcons
      simp only
      cases hc : selectCase t.call.timeout p with
      | timer =>
        refine hinv.set i t _ s.mu ht ?_ ?_
        · simp [hpc, Pc.holds]
        · simp [Thread.consistent, hcons, hc]
      | done =>
        cases hw : p.wait with
        | none =>
          refine hinv.set i t _ false ht ?_ ?_
          · simp [hpc, hmu, Pc.holds]
          · simp [Thread.consistent, run, hcons, hc, hw]
        | some err =>
          refine hinv.set i t _ false ht ?_ ?_
          · simp [hpc, hmu, Pc.holds]
          · simp [Thread.consistent, run, hcons, hc, hw]
    | killing p =>
      have hmu := hpos (by simp [hpc, Pc.holds])
      rw [Thread.consistent, hpc] at hcons
      simp only at hcons
      simp only
      cases hk : p.kill with
      | none =>
        refine hinv.set i t _ false ht ?_ ?_
        · simp [hpc, hmu, Pc.holds]
        · simp [Thread.consistent, run, hcons.1, hcons.2, hk]
      | some err =>
        refine hinv.set i t _ false ht ?_ ?_
        · simp [hpc, hmu, Pc.holds]
        · simp [Thread.consistent, run, hcons.1, hcons.2, hk]
    | returned err => exact hinv

theorem Sys.Inv.init (calls : List RunCall) : Sys.Inv calls (Sys.init calls) := by
  refine ⟨?_, ?_, ?_⟩
  · simp only [Sys.holding, Sys.init, Bool.false_eq_true, if_false]
    induction calls with
    | nil => rfl
    | cons c rest _ => simp [List.countP_cons, Pc.holds]
  · simp [Sys.init, Function.comp_def]
  · intro t ht
    simp only [Sys.init, List.mem_map] at ht
    obtain ⟨c, _, hc⟩ := ht
    rw [← hc]
    simp [Thread.consistent]

theorem Sys.Inv.exec {calls : List RunCall} (schedule : List Nat) {s : Sys}
    (hinv : Sys.Inv calls s) : Sys.Inv calls (s.exec schedule) := by
  induction schedule generalizing s with
  | nil => exact hinv
  | cons i rest ih => exact ih (hinv.step i)

theorem Sys.running_le_holding (s : Sys) : s.running ≤ s.holding := by
  unfold Sys.running Sys.holding
  apply List.countP_mono_left
  intro t _ h
  cases hpc : t.pc <;> simp [hpc, Pc.running, Pc.holds] at h ⊢

/-- C10: whatever calls of `run` are made and however their steps interleave,
at every moment the mutex is held exactly when one call is between its `Lock`
and its return and is free when none is (every return path has released it);
so at most one call holds it, at most one call is in the state Running, and
each call that has returned has returned what `run` returns. -/
theorem run_mutual_exclusion (calls : List RunCall) (schedule : List Nat) :
    ((Sys.init calls).exec schedule).running ≤ 1 ∧
    ((Sys.init calls).exec schedule).holding ≤ 1 ∧
    (((Sys.init calls).exec schedule).mu = true ↔
      ((Sys.init calls).exec schedule).holding = 1) ∧
    ((Sys.init calls).exec schedule).threads.map (fun t => t.call) = calls ∧
    (∀ t ∈ ((Sys.init calls).exec schedule).threads, ∀ err, t.pc = .returned err →
      err = (run t.call.w t.call.command t.call.timeout).err) := by
  have hinv := (Sys.Inv.init calls).exec schedule
  have hm := hinv.mutex
  have hr := Sys.running_le_holding ((Sys.init calls).exec schedule)
  refine ⟨?_, ?_, ?_, hinv.same, ?_⟩
  · split at hm <;> omega
  · split at hm <;> omega
  · cases hmu : ((Sys.init calls).exec schedule).mu with
    | true => rw [hmu] at hm; simpa using hm
    | false => rw [hmu] at hm; simp at hm; simp [hm]
  · intro t ht err hpc
    have hc := hinv.consistent t ht
    rw [Thread.consistent, hpc] at hc
    exact hc

/-- Two calls made at once: while the first is in the state Running the second
cannot pass `Lock`, however often it is scheduled; once the first has returned
the second runs, and both end with the result of `run`. -/
theorem two_calls_take_turns :
    (((Sys.init
        [{ w := worldOf (.ok (childOk 1000)), command := "echo Hello world", timeout := 30 },
         { w := worldOf (.ok (childOk 5000000000)), command := "sleep 5", timeout := 0 }]).exec
        [0, 0, 1, 1]).threads.map (fun t => t.pc))
      = [.selecting (childOk 1000), .called] ∧
    (((Sys.init
        [{ w := worldOf (.ok (childOk 1000)), command := "echo Hello world", timeout := 30 },
         { w := worldOf (.ok (childOk 5000000000)), command := "sleep 5", timeout := 0 }]).exec
        [0, 0, 1, 1, 0, 1, 1, 1, 1]).threads.map (fun t => t.pc))
      = [.returned none,
         .returned (some (.ofTimeout { command := "sleep 5", timeout := 0 }))] := by
  decide

end Gotenberg
